import Mathlib

set_option maxRecDepth 8000

/-!
Verification of the OpenClaw instance registry and port-allocation subsystem.

The definitions below are a shallow embedding of the `InstanceManager` class
(`src/commands/instances/instance-manager.ts`) together with the constants of
`src/commands/instances/instance-types.ts`.  The JSON registry document is
modelled as a `Registry` value; the JS object `registry.instances` is an
association list with unique keys; the optional `availableOffsets` field is an
`Option (List Int)`.  Live port probing (`isPortAvailable`) is modelled by an
oracle `Int → Bool` (port number to availability), filesystem side effects of
`create` by a boolean `fsOk`, and `new Date().toISOString()` by an explicit
`createdAt` argument.  Thrown `Error`s become `Except.error` carrying the
thrown message.
-/

deriving instance DecidableEq for Except

namespace OpenClaw

/-- `INSTANCES_BASE_PORT` from `instance-types.ts`. -/
def INSTANCES_BASE_PORT : Int := 18800

/-- `INSTANCES_PORT_STEP` from `instance-types.ts`. -/
def INSTANCES_PORT_STEP : Int := 120

/-- The `Instance` record exactly as `InstanceManager.create` constructs it. -/
structure Instance where
  name : String
  gatewayPort : Int
  bridgePort : Int
  configDir : String
  createdAt : String
deriving Repr, DecidableEq

/-- The persisted `Registry` document.  `instances` is a JS object
(association list with unique keys); `availableOffsets` is an optional field
(absent on legacy documents). -/
structure Registry where
  instances : List (String × Instance)
  nextPortOffset : Int
  availableOffsets : Option (List Int)
deriving Repr, DecidableEq

/-- JS object read `registry.instances[name]`. -/
def recGet : List (String × Instance) → String → Option Instance
  | [], _ => none
  | (k, v) :: rest, key => if k = key then some v else recGet rest key

/-- JS object write `registry.instances[name] = inst`: replaces an existing
binding in place, appends a fresh one. -/
def recSet : List (String × Instance) → String → Instance → List (String × Instance)
  | [], key, inst => [(key, inst)]
  | (k, v) :: rest, key, inst =>
    if k = key then (key, inst) :: rest else (k, v) :: recSet rest key inst

/-- JS `delete registry.instances[name]`.  Keys are unique, so removing every
binding with the given key is the same as removing the one binding. -/
def recDel (m : List (String × Instance)) (key : String) : List (String × Instance) :=
  m.filter (fun kv => kv.1 ≠ key)

/-- `array.sort((a, b) => a - b)`: ascending numeric sort. -/
def sortAsc (l : List Int) : List Int := List.insertionSort (· ≤ ·) l

/-- The `availableOffsets` field, read with the JS behaviour that an absent
field acts as the empty pool (`if (!registry.availableOffsets)` guards). -/
def availList (reg : Registry) : List Int := reg.availableOffsets.getD []

/-- The empty registry written by `initRegistry`:
`{ instances: {}, nextPortOffset: 0 }` — no `availableOffsets` field. -/
def emptyRegistry : Registry :=
  { instances := [], nextPortOffset := 0, availableOffsets := none }

/-- Result record of `validateName`. -/
structure ValidationResult where
  valid : Bool
  error : Option String
deriving Repr, DecidableEq

/-- Character class `[a-zA-Z]`. -/
def isAsciiLetter (c : Char) : Bool :=
  ('a' ≤ c && c ≤ 'z') || ('A' ≤ c && c ≤ 'Z')

/-- Character class `[a-zA-Z0-9_-]`. -/
def isNameTailChar (c : Char) : Bool :=
  isAsciiLetter c || ('0' ≤ c && c ≤ '9') || c = '_' || c = '-'

/-- The test `/^[a-zA-Z][a-zA-Z0-9_-]*$/.test(name)`. -/
def nameRegexTest (s : String) : Bool :=
  match s.data with
  | [] => false
  | c :: rest => isAsciiLetter c && rest.all isNameTailChar

/-- `instanceExists(name)`: `name in registry.instances`. -/
def instanceExists (reg : Registry) (name : String) : Bool :=
  (recGet reg.instances name).isSome

/-- `validateName(name)`.  The registry it reads is passed explicitly. -/
def validateName (reg : Registry) (name : String) : ValidationResult :=
  if name = "" then
    { valid := false, error := some "Name is required" }
  else if !nameRegexTest name then
    { valid := false
      error := some
        "Name must start with a letter and contain only letters, numbers, dashes, underscores" }
  else if name.length > 32 then
    { valid := false, error := some "Name must be 32 characters or less" }
  else if instanceExists reg name then
    { valid := false
      error := some ("Instance '" ++ name ++ "' already exists") }
  else
    { valid := true, error := none }

/-- Intermediate result of the `allocatePort` retry loop. -/
inductive AllocLoopRes where
  | ok (gatewayPort bridgePort : Int) (written : Registry) (tried : List Int)
  | rangeErr (gatewayPort bridgePort : Int) (tried : List Int)
  | exhausted (tried : List Int)
deriving Repr, DecidableEq

/-- Offset selection of one attempt: `shift()` the first (smallest) reclaimed
offset when `availableOffsets` is non-empty, otherwise take `nextPortOffset`
and increment the watermark. -/
def pickOffset (reg : Registry) : Int × Registry :=
  match reg.availableOffsets with
  | some (o :: rest) => (o, { reg with availableOffsets := some rest })
  | _ => (reg.nextPortOffset, { reg with nextPortOffset := reg.nextPortOffset + 1 })

/-- The `for (let attempt = 0; attempt < maxAttempts; attempt++)` loop body of
`allocatePort`, acting on the in-memory registry.  `tried` accumulates the
offsets attempted so far, most recent first. -/
def allocLoop (oracle : Int → Bool) : Nat → Registry → List Int → AllocLoopRes
  | 0, _, tried => .exhausted tried.reverse
  | Nat.succ fuel, reg, tried =>
    let offset := (pickOffset reg).1
    let reg1 := (pickOffset reg).2
    let gatewayPort := INSTANCES_BASE_PORT + offset * INSTANCES_PORT_STEP
    let bridgePort := gatewayPort + 1
    if gatewayPort > 65535 ∨ bridgePort > 65535 then
      .rangeErr gatewayPort bridgePort (offset :: tried).reverse
    else if oracle gatewayPort && oracle bridgePort then
      .ok gatewayPort bridgePort reg1 (offset :: tried).reverse
    else
      allocLoop oracle fuel
        { reg1 with availableOffsets := some (sortAsc (availList reg1 ++ [offset])) }
        (offset :: tried)

/-- `maxAttempts` of `allocatePort`. -/
def maxAttempts : Nat := 1000

/-- Outcome of one `allocatePort` call: the returned pair or thrown message,
the registry as persisted on disk after the call (only the success path
writes), and the offsets attempted in order. -/
structure AllocOut where
  res : Except String (Int × Int)
  reg : Registry
  tried : List Int
deriving Repr, DecidableEq

/-- `allocatePort()`. -/
def allocatePort (oracle : Int → Bool) (reg : Registry) : AllocOut :=
  match allocLoop oracle maxAttempts reg [] with
  | .ok gw bp written tried => { res := .ok (gw, bp), reg := written, tried := tried }
  | .rangeErr gw bp tried =>
    { res := .error ("Port allocation exceeded valid range (gateway: " ++ toString gw ++
        ", bridge: " ++ toString bp ++ ")")
      reg := reg, tried := tried }
  | .exhausted tried =>
    { res := .error ("Could not find available ports after " ++ toString maxAttempts ++
        " attempts. Please specify a custom port with --port")
      reg := reg, tried := tried }

/-- `CreateInstanceOptions`. -/
structure CreateInstanceOptions where
  name : String
  port : Option Int
deriving Repr, DecidableEq

/-- Outcome of one `create` call. -/
structure CreateOut where
  res : Except String Instance
  reg : Registry
deriving Repr, DecidableEq

/-- `getInstanceDir(name)`. -/
def getInstanceDir (baseDir name : String) : String :=
  baseDir ++ "/instances/" ++ name

/-- The tail of `create` once ports are resolved: build the `Instance` record,
create directories and config files (modelled by `fsOk`), then re-read the
registry, insert the instance and write it back. -/
def createCommit (fsOk : Bool) (createdAt baseDir name : String)
    (gatewayPort bridgePort : Int) (reg : Registry) : CreateOut :=
  let instanceDir := getInstanceDir baseDir name
  let inst : Instance :=
    { name := name, gatewayPort := gatewayPort, bridgePort := bridgePort
      configDir := instanceDir, createdAt := createdAt }
  if !fsOk then
    { res := .error "EACCES: filesystem operation failed", reg := reg }
  else
    { res := .ok inst
      reg := { reg with instances := recSet reg.instances name inst } }

/-- The auto-allocation arm of `create`: `const ports = await this.allocatePort()`. -/
def createAuto (oracle : Int → Bool) (fsOk : Bool) (createdAt baseDir name : String)
    (reg : Registry) : CreateOut :=
  let alloc := allocatePort oracle reg
  match alloc.res with
  | .error e => { res := .error e, reg := alloc.reg }
  | .ok (gw, bp) => createCommit fsOk createdAt baseDir name gw bp alloc.reg

/-- `create(options)`.  The JS guard `if (port)` treats both an absent `port`
and a `port` of `0` as falsy, falling through to auto-allocation. -/
def create (oracle : Int → Bool) (fsOk : Bool) (createdAt baseDir : String)
    (options : CreateInstanceOptions) (reg : Registry) : CreateOut :=
  let validation := validateName reg options.name
  if !validation.valid then
    { res := .error (validation.error.getD ""), reg := reg }
  else
    match options.port with
    | some p =>
      if p = 0 then
        createAuto oracle fsOk createdAt baseDir options.name reg
      else if p < 1024 ∨ p > 65534 then
        { res := .error "Port must be between 1024 and 65534", reg := reg }
      else if !oracle p || !oracle (p + 1) then
        { res := .error ("Port " ++ toString p ++ " or " ++ toString (p + 1) ++
            " is already in use")
          reg := reg }
      else
        createCommit fsOk createdAt baseDir options.name p (p + 1) reg
    | none => createAuto oracle fsOk createdAt baseDir options.name reg

/-- `Math.floor((gatewayPort - INSTANCES_BASE_PORT) / INSTANCES_PORT_STEP)` as
computed by `destroy`.  `Int.fdiv` is floor division, matching `Math.floor`
of a real quotient with positive divisor. -/
def impliedOffset (gatewayPort : Int) : Int :=
  Int.fdiv (gatewayPort - INSTANCES_BASE_PORT) INSTANCES_PORT_STEP

/-- Observable side effects of `destroy`, in program order. -/
inductive FsAction where
  | composeDown (name : String)
  | removeDir (dir : String)
  | writeRegistry
deriving Repr, DecidableEq

/-- Outcome of one `destroy` call. -/
structure DestroyOut where
  res : Except String Unit
  reg : Registry
  actions : List FsAction
deriving Repr, DecidableEq

/-- `destroy(options)`.  `dirExists` models `fs.existsSync(instanceDir)`. -/
def destroy (baseDir name : String) (keepData dirExists : Bool) (reg : Registry) :
    DestroyOut :=
  match recGet reg.instances name with
  | none =>
    { res := .error ("Instance '" ++ name ++ "' not found")
      reg := reg, actions := [] }
  | some inst =>
    let portOffset := impliedOffset inst.gatewayPort
    let instanceDir := getInstanceDir baseDir name
    let acts1 := [FsAction.composeDown name]
    let acts2 := if !keepData && dirExists then acts1 ++ [FsAction.removeDir instanceDir]
      else acts1
    let reg1 := { reg with instances := recDel reg.instances name }
    { res := .ok ()
      reg := { reg1 with availableOffsets := some (sortAsc (availList reg1 ++ [portOffset])) }
      actions := acts2 ++ [FsAction.writeRegistry] }

/-- An always-available port oracle (every transient bind succeeds). -/
def trueOracle : Int → Bool := fun _ => true

/-- Registry states reachable from the empty registry by `create` (either
port mode), `destroy` and `allocatePort` calls, under arbitrary oracles,
filesystem outcomes and arguments. -/
inductive Reach : Registry → Prop where
  | init : Reach emptyRegistry
  | stepCreate (oracle : Int → Bool) (fsOk : Bool) (createdAt baseDir : String)
      (options : CreateInstanceOptions) {reg : Registry} :
      Reach reg → Reach (create oracle fsOk createdAt baseDir options reg).reg
  | stepDestroy (baseDir name : String) (keepData dirExists : Bool) {reg : Registry} :
      Reach reg → Reach (destroy baseDir name keepData dirExists reg).reg
  | stepAlloc (oracle : Int → Bool) {reg : Registry} :
      Reach reg → Reach (allocatePort oracle reg).reg

/-- Registry states reachable using only auto-allocated `create` (no explicit
port), `destroy` and `allocatePort`. -/
inductive ReachAuto : Registry → Prop where
  | init : ReachAuto emptyRegistry
  | stepCreate (oracle : Int → Bool) (fsOk : Bool) (createdAt baseDir name : String)
      {reg : Registry} :
      ReachAuto reg →
      ReachAuto (create oracle fsOk createdAt baseDir { name := name, port := none } reg).reg
  | stepDestroy (baseDir name : String) (keepData dirExists : Bool) {reg : Registry} :
      ReachAuto reg → ReachAuto (destroy baseDir name keepData dirExists reg).reg
  | stepAlloc (oracle : Int → Bool) {reg : Registry} :
      ReachAuto reg → ReachAuto (allocatePort oracle reg).reg

/-- The registry invariant claimed by the spec (§3): every live instance's
implied offset is neither in `availableOffsets` nor past the watermark, and
`availableOffsets` has no duplicates and no value past the watermark. -/
def ClaimInv (reg : Registry) : Prop :=
  (∀ kv ∈ reg.instances,
      impliedOffset kv.2.gatewayPort ∉ availList reg ∧
      impliedOffset kv.2.gatewayPort < reg.nextPortOffset) ∧
  (availList reg).Nodup ∧
  ∀ o ∈ availList reg, o < reg.nextPortOffset

instance (reg : Registry) : Decidable (ClaimInv reg) := by
  unfold ClaimInv; infer_instance

/-- One `create` call of a call sequence: its options and its environment
(the oracle and filesystem outcome in effect when it runs). -/
structure CreateCall where
  name : String
  port : Option Int
  oracle : Int → Bool
  fsOk : Bool
  createdAt : String

/-- Run a sequence of `create` calls against a registry; returns the final
registry and the `gatewayPort` values returned by the successful calls, in
call order. -/
def runCreateCalls (baseDir : String) : List CreateCall → Registry → Registry × List Int
  | [], reg => (reg, [])
  | c :: cs, reg =>
    let out := create c.oracle c.fsOk c.createdAt baseDir { name := c.name, port := c.port } reg
    let rest := runCreateCalls baseDir cs out.reg
    match out.res with
    | .ok inst => (rest.1, inst.gatewayPort :: rest.2)
    | .error _ => rest

/-- The offset the next allocation attempt will try first: the head of the
(sorted) `availableOffsets` pool if non-empty, else the watermark. -/
def smallestCandidate (reg : Registry) : Int :=
  match reg.availableOffsets with
  | some (o :: _) => o
  | _ => reg.nextPortOffset

/-- Sample timestamp for concrete runs. -/
def sampleTs : String := "2026-02-15T00:00:00.000Z"

/-- Sample base directory for concrete runs. -/
def sampleBase : String := "/home/user/.openclaw-multi"

/-- The instance record produced by the first auto-allocated create of `"a"`. -/
def sampleInstanceA : Instance :=
  { name := "a", gatewayPort := 18800, bridgePort := 18801
    configDir := sampleBase ++ "/instances/a", createdAt := sampleTs }

/-- The instance record produced by an auto-allocated create of `"b"` at offset 0. -/
def sampleInstanceB : Instance :=
  { name := "b", gatewayPort := 18800, bridgePort := 18801
    configDir := sampleBase ++ "/instances/b", createdAt := sampleTs }

/-- Registry after one auto-allocated `create("a")` from the empty registry. -/
def regAfterCreateA : Registry :=
  (create trueOracle true sampleTs sampleBase { name := "a", port := none } emptyRegistry).reg

/-- Registry reached by one explicit-port `create("a", 18800)` from the empty
registry. -/
def c1CexReg : Registry :=
  (create trueOracle true sampleTs sampleBase { name := "a", port := some 18800 }
    emptyRegistry).reg

/-- Registry after `create("a", 18800)` (explicit port). -/
def c3Reg1 : Registry :=
  (create trueOracle true sampleTs sampleBase { name := "a", port := some 18800 }
    emptyRegistry).reg

/-- ... then `create("b", 18850)` (explicit port, same implied offset 0). -/
def c3Reg2 : Registry :=
  (create trueOracle true sampleTs sampleBase { name := "b", port := some 18850 } c3Reg1).reg

/-- ... then `destroy("a")`. -/
def c3Reg3 : Registry := (destroy sampleBase "a" false true c3Reg2).reg

/-- ... then `destroy("b")`. -/
def c3Reg4 : Registry := (destroy sampleBase "b" false true c3Reg3).reg

/-- The `create("a")` of the C4 scenario, from the empty registry. -/
def c4CreateA : CreateOut :=
  create trueOracle true sampleTs sampleBase { name := "a", port := none } emptyRegistry

/-- ... then `destroy("a")`. -/
def c4Destroy : DestroyOut := destroy sampleBase "a" false true c4CreateA.reg

/-- ... then `create("b")`. -/
def c4CreateB : CreateOut :=
  create trueOracle true sampleTs sampleBase { name := "b", port := none } c4Destroy.reg

/-- A second `create("a")` while `"a"` is still registered (duplicate name). -/
def c7Out : CreateOut :=
  create trueOracle true sampleTs sampleBase { name := "a", port := none } regAfterCreateA

/-- A registry with one registered instance named `"inuse"`. -/
def c6Reg : Registry :=
  { instances := [("inuse", sampleInstanceA)], nextPortOffset := 1, availableOffsets := none }

/-- A 32-letter name. -/
def name32 : String := "aaaaaaaaaaaaaaaaaaaaaaaaaaaaaaaa"

/-- A 33-letter name. -/
def name33 : String := "aaaaaaaaaaaaaaaaaaaaaaaaaaaaaaaaa"

/-- An oracle with exactly the ports 18800 and 18801 (offset 0) in use. -/
def c9Oracle : Int → Bool := fun p => !(p == 18800 || p == 18801)

/-- The C10 scenario: explicit-port `create("a", p)` from the empty registry. -/
def c10Create (p : Int) : CreateOut :=
  create trueOracle true sampleTs sampleBase { name := "a", port := some p } emptyRegistry

/-- ... then `destroy("a")`, which reclaims `Math.floor((p − 18800) / 120)`. -/
def c10Destroy (p : Int) : DestroyOut := destroy sampleBase "a" false true (c10Create p).reg

/-- ... then a bare auto-allocation. -/
def c10Alloc (p : Int) : AllocOut := allocatePort trueOracle (c10Destroy p).reg

/-- Strengthened invariant, preserved by auto-allocated `create`, `destroy`
and `allocatePort`; it implies `ClaimInv`. -/
def InvS (reg : Registry) : Prop :=
  (availList reg).Nodup ∧
  (∀ o ∈ availList reg, 0 ≤ o ∧ o < reg.nextPortOffset) ∧
  0 ≤ reg.nextPortOffset ∧
  (reg.instances.map Prod.fst).Nodup ∧
  (∀ kv ∈ reg.instances,
      0 ≤ impliedOffset kv.2.gatewayPort ∧
      kv.2.gatewayPort =
        INSTANCES_BASE_PORT + impliedOffset kv.2.gatewayPort * INSTANCES_PORT_STEP ∧
      impliedOffset kv.2.gatewayPort ∉ availList reg ∧
      impliedOffset kv.2.gatewayPort < reg.nextPortOffset) ∧
  reg.instances.Pairwise
    (fun a b => impliedOffset a.2.gatewayPort ≠ impliedOffset b.2.gatewayPort)

/-- The instance record built by `create`. -/
def builtInstance (createdAt baseDir name : String) (gatewayPort bridgePort : Int) :
    Instance :=
  { name := name, gatewayPort := gatewayPort, bridgePort := bridgePort
    configDir := getInstanceDir baseDir name, createdAt := createdAt }

/-! ### Association-list lemmas -/

theorem recGet_mem {m : List (String × Instance)} {key : String} {inst : Instance}
    (h : recGet m key = some inst) : (key, inst) ∈ m := by
  induction m with
  | nil => simp [recGet] at h
  | cons kv rest ih =>
    obtain ⟨k, v⟩ := kv
    by_cases hk : k = key
    · subst hk
      simp [recGet] at h
      simp [h]
    · simp [recGet, hk] at h
      exact List.mem_cons_of_mem _ (ih h)

theorem recGet_none_key {m : List (String × Instance)} {key : String}
    (h : recGet m key = none) : ∀ kv ∈ m, kv.1 ≠ key := by
  induction m with
  | nil => simp
  | cons kv rest ih =>
    obtain ⟨k, v⟩ := kv
    by_cases hk : k = key
    · subst hk; simp [recGet] at h
    · simp [recGet, hk] at h
      intro kv' hkv'
      rcases List.mem_cons.mp hkv' with h' | h'
      · subst h'; exact hk
      · exact ih h kv' h'

theorem recSet_absent {m : List (String × Instance)} {key : String} (inst : Instance)
    (h : recGet m key = none) : recSet m key inst = m ++ [(key, inst)] := by
  induction m with
  | nil => rfl
  | cons kv rest ih =>
    obtain ⟨k, v⟩ := kv
    by_cases hk : k = key
    · subst hk; simp [recGet] at h
    · simp [recGet, hk] at h
      simp [recSet, hk, ih h]

theorem mem_recDel {m : List (String × Instance)} {key : String} {kv : String × Instance}
    (h : kv ∈ recDel m key) : kv ∈ m ∧ kv.1 ≠ key := by
  unfold recDel at h
  have := List.mem_filter.mp h
  refine ⟨this.1, by simpa using this.2⟩

theorem recDel_sublist (m : List (String × Instance)) (key : String) :
    (recDel m key).Sublist m := List.filter_sublist m

/-! ### Sorting lemmas (`array.sort((a, b) => a - b)`) -/

theorem sortAsc_perm (l : List Int) : (sortAsc l).Perm l :=
  List.perm_insertionSort _ l

theorem mem_sortAsc {l : List Int} {o : Int} : o ∈ sortAsc l ↔ o ∈ l :=
  (sortAsc_perm l).mem_iff

theorem sortAsc_nodup {l : List Int} (h : l.Nodup) : (sortAsc l).Nodup :=
  ((sortAsc_perm l).nodup_iff).mpr h

theorem sortAsc_sorted (l : List Int) : (sortAsc l).Pairwise (· ≤ ·) :=
  List.sorted_insertionSort _ l

theorem orderedInsert_head_le (r : Int) (rs : List Int) (h : ∀ y ∈ rs, r ≤ y) :
    List.orderedInsert (· ≤ ·) r rs = r :: rs := by
  cases rs with
  | nil => rfl
  | cons s ss => simp [List.orderedInsert, h s (by simp)]

/-- Sorting a sorted list with its least element re-appended puts that element
back in front and leaves the rest untouched. -/
theorem sortAsc_min_head (o : Int) (rest : List Int)
    (hsorted : rest.Pairwise (· ≤ ·)) (hmin : ∀ y ∈ rest, o ≤ y) :
    sortAsc (rest ++ [o]) = o :: rest := by
  induction rest with
  | nil => rfl
  | cons r rs ih =>
    have hrrs : ∀ y ∈ rs, r ≤ y := fun y hy => (List.pairwise_cons.mp hsorted).1 y hy
    have hor : o ≤ r := hmin r (by simp)
    have step : sortAsc ((r :: rs) ++ [o]) =
        List.orderedInsert (· ≤ ·) r (sortAsc (rs ++ [o])) := rfl
    rw [step, ih (List.pairwise_cons.mp hsorted).2 (fun y hy => hmin y (by simp [hy]))]
    by_cases hro : r ≤ o
    · have : r = o := le_antisymm hro hor
      subst this
      simp [List.orderedInsert]
    · simp only [List.orderedInsert, if_neg hro]
      rw [orderedInsert_head_le r rs hrrs]

/-! ### Arithmetic about implied offsets -/

theorem impliedOffset_base_step (o : Int) :
    impliedOffset (INSTANCES_BASE_PORT + o * INSTANCES_PORT_STEP) = o := by
  unfold impliedOffset INSTANCES_BASE_PORT INSTANCES_PORT_STEP
  have h : (18800 : Int) + o * 120 - 18800 = o * 120 := by ring
  rw [h]
  exact Int.mul_fdiv_cancel o (by norm_num)

theorem impliedOffset_neg {p : Int} (hhi : p ≤ 18799) :
    impliedOffset p < 0 := by
  unfold impliedOffset INSTANCES_BASE_PORT INSTANCES_PORT_STEP
  have h := Int.fdiv_add_fmod (p - 18800) 120
  have h1 : 0 ≤ Int.fmod (p - 18800) 120 := by
    have := Int.fmod_nonneg' (p - 18800) (b := 120) (by norm_num)
    omega
  have h2 : Int.fmod (p - 18800) 120 < 120 := Int.fmod_lt_of_pos _ (by norm_num)
  nlinarith [h, h1, h2]

/-! ### The strengthened inductive invariant -/

theorem InvS_empty : InvS emptyRegistry := by
  simp [InvS, emptyRegistry, availList]

theorem InvS.claimInv {reg : Registry} (h : InvS reg) : ClaimInv reg := by
  obtain ⟨h1, h2, _, _, h5, _⟩ := h
  exact ⟨fun kv hkv => ⟨(h5 kv hkv).2.2.1, (h5 kv hkv).2.2.2⟩, h1,
    fun o ho => (h2 o ho).2⟩

/-! ### Properties of the allocation loop -/

theorem pickOffset_instances (reg : Registry) :
    (pickOffset reg).2.instances = reg.instances := by
  unfold pickOffset
  rcases h : reg.availableOffsets with _ | (_ | ⟨o, rest⟩) <;> rfl

theorem pickOffset_watermark (reg : Registry)
    (h : reg.availableOffsets = none ∨ reg.availableOffsets = some []) :
    pickOffset reg =
      (reg.nextPortOffset, { reg with nextPortOffset := reg.nextPortOffset + 1 }) := by
  rcases h with h | h <;> (unfold pickOffset; rw [h])

theorem pickOffset_shift (reg : Registry) {o : Int} {rest : List Int}
    (h : reg.availableOffsets = some (o :: rest)) :
    pickOffset reg = (o, { reg with availableOffsets := some rest }) := by
  unfold pickOffset; rw [h]

theorem pickOffset_spec (reg : Registry) (hinv : InvS reg) :
    (pickOffset reg).2.instances = reg.instances ∧
    InvS (pickOffset reg).2 ∧
    0 ≤ (pickOffset reg).1 ∧
    (pickOffset reg).1 ∉ availList (pickOffset reg).2 ∧
    (pickOffset reg).1 < (pickOffset reg).2.nextPortOffset ∧
    reg.nextPortOffset ≤ (pickOffset reg).2.nextPortOffset ∧
    (∀ kv ∈ reg.instances, impliedOffset kv.2.gatewayPort ≠ (pickOffset reg).1) := by
  obtain ⟨ha1, ha2, ha3, ha4, ha5, ha6⟩ := hinv
  rcases h : reg.availableOffsets with _ | (_ | ⟨o, rest⟩)
  · -- no availableOffsets field: take the watermark
    rw [pickOffset_watermark reg (Or.inl h)]
    have hempty : availList reg = [] := by simp [availList, h]
    have havail : availList { reg with nextPortOffset := reg.nextPortOffset + 1 } =
        availList reg := rfl
    refine ⟨rfl, ⟨?_, ?_, by simp; omega, ha4, ?_, ha6⟩, ha3, ?_, by simp, by simp, ?_⟩
    · rw [havail, hempty]; simp
    · intro y hy; rw [havail, hempty] at hy; simp at hy
    · intro kv hkv
      refine ⟨(ha5 kv hkv).1, (ha5 kv hkv).2.1, ?_, ?_⟩
      · rw [havail, hempty]; simp
      · have := (ha5 kv hkv).2.2.2; simp; omega
    · rw [havail, hempty]; simp
    · intro kv hkv
      have := (ha5 kv hkv).2.2.2; omega
  · -- empty availableOffsets array: take the watermark
    rw [pickOffset_watermark reg (Or.inr h)]
    have hempty : availList reg = [] := by simp [availList, h]
    have havail : availList { reg with nextPortOffset := reg.nextPortOffset + 1 } =
        availList reg := rfl
    refine ⟨rfl, ⟨?_, ?_, by simp; omega, ha4, ?_, ha6⟩, ha3, ?_, by simp, by simp, ?_⟩
    · rw [havail, hempty]; simp
    · intro y hy; rw [havail, hempty] at hy; simp at hy
    · intro kv hkv
      refine ⟨(ha5 kv hkv).1, (ha5 kv hkv).2.1, ?_, ?_⟩
      · rw [havail, hempty]; simp
      · have := (ha5 kv hkv).2.2.2; simp; omega
    · rw [havail, hempty]; simp
    · intro kv hkv
      have := (ha5 kv hkv).2.2.2; omega
  · -- non-empty pool: shift the first (smallest) offset
    rw [pickOffset_shift reg h]
    have hav : availList reg = o :: rest := by simp [availList, h]
    rw [hav] at ha1 ha2
    have havail : availList { reg with availableOffsets := some rest } = rest := rfl
    have hobounds := ha2 o (by simp)
    refine ⟨rfl, ⟨?_, ?_, ha3, ha4, ?_, ha6⟩, hobounds.1, ?_, by simpa using hobounds.2,
      le_refl _, ?_⟩
    · rw [havail]; exact (List.nodup_cons.mp ha1).2
    · intro y hy
      rw [havail] at hy
      exact ha2 y (by simp [hy])
    · intro kv hkv
      refine ⟨(ha5 kv hkv).1, (ha5 kv hkv).2.1, ?_, by simpa using (ha5 kv hkv).2.2.2⟩
      have hni := (ha5 kv hkv).2.2.1
      rw [hav] at hni
      rw [havail]
      intro hmem
      exact hni (by simp [hmem])
    · rw [havail]; exact (List.nodup_cons.mp ha1).1
    · intro kv hkv
      have hni := (ha5 kv hkv).2.2.1
      rw [hav] at hni
      intro heq
      exact hni (by simp [heq])

theorem pushBack_invS (reg1 : Registry) (o : Int) (hinv : InvS reg1)
    (ho0 : 0 ≤ o) (honotin : o ∉ availList reg1) (holt : o < reg1.nextPortOffset)
    (hinst : ∀ kv ∈ reg1.instances, impliedOffset kv.2.gatewayPort ≠ o) :
    InvS { reg1 with availableOffsets := some (sortAsc (availList reg1 ++ [o])) } := by
  obtain ⟨ha1, ha2, ha3, ha4, ha5, ha6⟩ := hinv
  have havail : availList { reg1 with
      availableOffsets := some (sortAsc (availList reg1 ++ [o])) } =
      sortAsc (availList reg1 ++ [o]) := rfl
  have hmem : ∀ y, y ∈ sortAsc (availList reg1 ++ [o]) ↔ y ∈ availList reg1 ∨ y = o := by
    intro y; rw [mem_sortAsc]; simp
  refine ⟨?_, ?_, ha3, ha4, ?_, ha6⟩
  · rw [havail]
    refine sortAsc_nodup (List.Nodup.append ha1 (by simp) ?_)
    intro y hy hy'
    simp at hy'
    subst hy'
    exact honotin hy
  · intro y hy
    rw [havail, hmem] at hy
    rcases hy with hy | hy
    · exact ha2 y hy
    · subst hy; exact ⟨ho0, holt⟩
  · intro kv hkv
    refine ⟨(ha5 kv hkv).1, (ha5 kv hkv).2.1, ?_, (ha5 kv hkv).2.2.2⟩
    rw [havail, hmem]
    push_neg
    exact ⟨(ha5 kv hkv).2.2.1, hinst kv hkv⟩

theorem allocLoop_instances (oracle : Int → Bool) :
    ∀ (fuel : Nat) (reg : Registry) (tried : List Int) {gw bp : Int} {written : Registry}
      {tr : List Int},
      allocLoop oracle fuel reg tried = .ok gw bp written tr →
      written.instances = reg.instances := by
  intro fuel
  induction fuel with
  | zero =>
    intro reg tried gw bp written tr h
    simp [allocLoop] at h
  | succ fuel ih =>
    intro reg tried gw bp written tr h
    simp only [allocLoop] at h
    split at h
    · simp at h
    · split at h
      · cases h
        exact pickOffset_instances reg
      · have := ih _ _ h
        rw [this, pickOffset_instances reg]

theorem allocLoop_ok_spec (oracle : Int → Bool) :
    ∀ (fuel : Nat) (reg : Registry) (tried : List Int), InvS reg →
      ∀ {gw bp : Int} {written : Registry} {tr : List Int},
        allocLoop oracle fuel reg tried = .ok gw bp written tr →
        InvS written ∧ written.instances = reg.instances ∧
        reg.nextPortOffset ≤ written.nextPortOffset ∧
        ∃ o : Int, 0 ≤ o ∧ gw = INSTANCES_BASE_PORT + o * INSTANCES_PORT_STEP ∧
          bp = gw + 1 ∧ o ∉ availList written ∧ o < written.nextPortOffset ∧
          ∀ kv ∈ written.instances, impliedOffset kv.2.gatewayPort ≠ o := by
  intro fuel
  induction fuel with
  | zero =>
    intro reg tried hinv gw bp written tr h
    simp [allocLoop] at h
  | succ fuel ih =>
    intro reg tried hinv gw bp written tr h
    obtain ⟨hpi, hpinv, hp0, hpnotin, hplt, hpmono, hpneq⟩ := pickOffset_spec reg hinv
    rcases hpk : pickOffset reg with ⟨o, reg1⟩
    rw [hpk] at hpi hpinv hp0 hpnotin hplt hpmono hpneq
    simp only [allocLoop, hpk] at h
    split at h
    · simp at h
    · split at h
      · cases h
        refine ⟨hpinv, hpi, hpmono, o, hp0, rfl, rfl, hpnotin, hplt, ?_⟩
        intro kv hkv
        exact hpneq kv (by rwa [hpi] at hkv)
      · have hinv2 := pushBack_invS reg1 o hpinv hp0 hpnotin hplt
          (fun kv hkv => hpneq kv (by rwa [hpi] at hkv))
        obtain ⟨h1, h2, h3, h4⟩ := ih _ _ hinv2 h
        refine ⟨h1, ?_, le_trans hpmono h3, h4⟩
        rw [h2]; exact hpi

theorem allocatePort_eq_ok {oracle : Int → Bool} {reg : Registry} {gw bp : Int}
    {written : Registry} {tried : List Int}
    (h : allocLoop oracle maxAttempts reg [] = .ok gw bp written tried) :
    allocatePort oracle reg = { res := .ok (gw, bp), reg := written, tried := tried } := by
  unfold allocatePort; rw [h]

theorem allocatePort_eq_range {oracle : Int → Bool} {reg : Registry} {gw bp : Int}
    {tried : List Int}
    (h : allocLoop oracle maxAttempts reg [] = .rangeErr gw bp tried) :
    allocatePort oracle reg =
      { res := .error ("Port allocation exceeded valid range (gateway: " ++ toString gw ++
          ", bridge: " ++ toString bp ++ ")")
        reg := reg, tried := tried } := by
  unfold allocatePort; rw [h]

theorem allocatePort_eq_exhausted {oracle : Int → Bool} {reg : Registry} {tried : List Int}
    (h : allocLoop oracle maxAttempts reg [] = .exhausted tried) :
    allocatePort oracle reg =
      { res := .error ("Could not find available ports after " ++ toString maxAttempts ++
          " attempts. Please specify a custom port with --port")
        reg := reg, tried := tried } := by
  unfold allocatePort; rw [h]

theorem allocatePort_ok_spec (oracle : Int → Bool) (reg : Registry) (hinv : InvS reg)
    {gw bp : Int} (h : (allocatePort oracle reg).res = .ok (gw, bp)) :
    InvS (allocatePort oracle reg).reg ∧
    (allocatePort oracle reg).reg.instances = reg.instances ∧
    reg.nextPortOffset ≤ (allocatePort oracle reg).reg.nextPortOffset ∧
    ∃ o : Int, 0 ≤ o ∧ gw = INSTANCES_BASE_PORT + o * INSTANCES_PORT_STEP ∧
      bp = gw + 1 ∧ o ∉ availList (allocatePort oracle reg).reg ∧
      o < (allocatePort oracle reg).reg.nextPortOffset ∧
      ∀ kv ∈ reg.instances, impliedOffset kv.2.gatewayPort ≠ o := by
  rcases hres : allocLoop oracle maxAttempts reg [] with
    ⟨gw', bp', written, tr⟩ | ⟨gw', bp', tr⟩ | tr
  · rw [allocatePort_eq_ok hres] at h ⊢
    simp at h
    obtain ⟨hgw, hbp⟩ := h
    subst hgw hbp
    obtain ⟨h1, h2, h3, o, ho⟩ := allocLoop_ok_spec oracle _ _ _ hinv hres
    refine ⟨h1, h2, h3, o, ho.1, ho.2.1, ho.2.2.1, ho.2.2.2.1, ho.2.2.2.2.1, ?_⟩
    intro kv hkv
    exact ho.2.2.2.2.2 kv (h2 ▸ hkv)
  · rw [allocatePort_eq_range hres] at h; simp at h
  · rw [allocatePort_eq_exhausted hres] at h; simp at h

theorem allocatePort_error_reg (oracle : Int → Bool) (reg : Registry) {e : String}
    (h : (allocatePort oracle reg).res = .error e) :
    (allocatePort oracle reg).reg = reg := by
  rcases hres : allocLoop oracle maxAttempts reg [] with
    ⟨gw', bp', written, tr⟩ | ⟨gw', bp', tr⟩ | tr
  · rw [allocatePort_eq_ok hres] at h; simp at h
  · rw [allocatePort_eq_range hres]
  · rw [allocatePort_eq_exhausted hres]

/-! ### Properties of `create` -/

theorem validateName_valid_not_exists {reg : Registry} {name : String}
    (h : (validateName reg name).valid = true) : recGet reg.instances name = none := by
  unfold validateName at h
  split_ifs at h with h1 h2 h3 h4
  · cases hg : recGet reg.instances name with
    | none => rfl
    | some inst =>
      unfold instanceExists at h4
      rw [hg] at h4
      simp at h4

theorem create_invalid_eq (oracle : Int → Bool) (fsOk : Bool) (createdAt baseDir : String)
    (options : CreateInstanceOptions) (reg : Registry)
    (hv : (validateName reg options.name).valid = false) :
    create oracle fsOk createdAt baseDir options reg =
      { res := .error ((validateName reg options.name).error.getD ""), reg := reg } := by
  unfold create
  simp [hv]

theorem create_none_eq (oracle : Int → Bool) (fsOk : Bool) (createdAt baseDir name : String)
    (reg : Registry) (hv : (validateName reg name).valid = true) :
    create oracle fsOk createdAt baseDir { name := name, port := none } reg =
      createAuto oracle fsOk createdAt baseDir name reg := by
  unfold create
  simp [hv]

theorem createAuto_err_eq {oracle : Int → Bool} {reg : Registry} {e : String}
    (fsOk : Bool) (createdAt baseDir name : String)
    (h : (allocatePort oracle reg).res = .error e) :
    createAuto oracle fsOk createdAt baseDir name reg =
      { res := .error e, reg := (allocatePort oracle reg).reg } := by
  unfold createAuto
  simp only [h]

theorem createAuto_ok_eq {oracle : Int → Bool} {reg : Registry} {gw bp : Int}
    (fsOk : Bool) (createdAt baseDir name : String)
    (h : (allocatePort oracle reg).res = .ok (gw, bp)) :
    createAuto oracle fsOk createdAt baseDir name reg =
      createCommit fsOk createdAt baseDir name gw bp (allocatePort oracle reg).reg := by
  unfold createAuto
  simp only [h]

theorem createCommit_fsfail_eq (createdAt baseDir name : String) (gw bp : Int)
    (reg : Registry) :
    createCommit false createdAt baseDir name gw bp reg =
      { res := .error "EACCES: filesystem operation failed", reg := reg } := rfl

theorem createCommit_ok_eq (createdAt baseDir name : String) (gw bp : Int)
    (reg : Registry) :
    createCommit true createdAt baseDir name gw bp reg =
      { res := .ok (builtInstance createdAt baseDir name gw bp)
        reg := { instances := recSet reg.instances name (builtInstance createdAt baseDir name gw bp)
                 nextPortOffset := reg.nextPortOffset
                 availableOffsets := reg.availableOffsets } } := rfl

theorem registerInstance_invS (reg2 : Registry) (name : String) (inst : Instance)
    (hinv : InvS reg2)
    (habsent : recGet reg2.instances name = none)
    (o : Int) (ho0 : 0 ≤ o)
    (hgw : inst.gatewayPort = INSTANCES_BASE_PORT + o * INSTANCES_PORT_STEP)
    (honot : o ∉ availList reg2) (holt : o < reg2.nextPortOffset)
    (hfresh : ∀ kv ∈ reg2.instances, impliedOffset kv.2.gatewayPort ≠ o) :
    InvS { reg2 with instances := recSet reg2.instances name inst } := by
  obtain ⟨ha1, ha2, ha3, ha4, ha5, ha6⟩ := hinv
  have hoff : impliedOffset inst.gatewayPort = o := by
    rw [hgw, impliedOffset_base_step]
  rw [recSet_absent inst habsent]
  have hkeys := recGet_none_key habsent
  refine ⟨ha1, ha2, ha3, ?_, ?_, ?_⟩
  · rw [List.map_append]
    refine List.Nodup.append ha4 (by simp) ?_
    intro k hk hk'
    simp at hk'
    subst hk'
    obtain ⟨kv, hkv, hkv1⟩ := List.mem_map.mp hk
    exact hkeys kv hkv hkv1
  · intro kv hkv
    rcases List.mem_append.mp hkv with hkv | hkv
    · exact ha5 kv hkv
    · simp at hkv
      subst hkv
      exact ⟨by rw [hoff]; exact ho0, by rw [hoff, ← hgw], by rw [hoff]; exact honot,
        by rw [hoff]; exact holt⟩
  · rw [List.pairwise_append]
    refine ⟨ha6, by simp, ?_⟩
    intro a ha b hb
    simp at hb
    subst hb
    simp only [hoff]
    exact hfresh a ha

theorem create_none_spec (oracle : Int → Bool) (fsOk : Bool) (createdAt baseDir name : String)
    (reg : Registry) (hinv : InvS reg) :
    InvS (create oracle fsOk createdAt baseDir { name := name, port := none } reg).reg ∧
    (∀ kv ∈ reg.instances,
       kv ∈ (create oracle fsOk createdAt baseDir { name := name, port := none } reg).reg.instances) ∧
    (∀ inst, (create oracle fsOk createdAt baseDir { name := name, port := none } reg).res = .ok inst →
       ∃ o : Int, 0 ≤ o ∧
         inst.gatewayPort = INSTANCES_BASE_PORT + o * INSTANCES_PORT_STEP ∧
         (name, inst) ∈ (create oracle fsOk createdAt baseDir
             { name := name, port := none } reg).reg.instances ∧
         (∀ kv ∈ reg.instances, impliedOffset kv.2.gatewayPort ≠ o)) := by
  by_cases hv : (validateName reg name).valid = true
  · rw [create_none_eq oracle fsOk createdAt baseDir name reg hv]
    have habs : recGet reg.instances name = none := validateName_valid_not_exists hv
    rcases hres : (allocatePort oracle reg).res with e | ⟨gw, bp⟩
    · rw [createAuto_err_eq fsOk createdAt baseDir name hres]
      rw [allocatePort_error_reg oracle reg hres]
      exact ⟨hinv, fun kv hkv => hkv, fun inst hres' => by simp at hres'⟩
    · rw [createAuto_ok_eq fsOk createdAt baseDir name hres]
      obtain ⟨hai, haii, haim, o, ho0, hogw, hobp, honot, holt, hone⟩ :=
        allocatePort_ok_spec oracle reg hinv hres
      have habs2 : recGet (allocatePort oracle reg).reg.instances name = none := by
        rw [haii]; exact habs
      cases fsOk
      · rw [createCommit_fsfail_eq]
        refine ⟨hai, ?_, fun inst hres' => by simp at hres'⟩
        intro kv hkv
        rw [haii]; exact hkv
      · rw [createCommit_ok_eq]
        have hreginv := registerInstance_invS (allocatePort oracle reg).reg name
          (builtInstance createdAt baseDir name gw bp) hai habs2 o ho0 hogw honot holt
          (fun kv hkv => hone kv (haii ▸ hkv))
        refine ⟨?_, ?_, ?_⟩
        · exact hreginv
        · intro kv hkv
          show kv ∈ recSet (allocatePort oracle reg).reg.instances name
            (builtInstance createdAt baseDir name gw bp)
          rw [recSet_absent _ habs2]
          exact List.mem_append.mpr (Or.inl (haii ▸ hkv))
        · intro inst hres'
          simp at hres'
          refine ⟨o, ho0, by rw [← hres']; exact hogw, ?_, hone⟩
          show (name, inst) ∈ recSet (allocatePort oracle reg).reg.instances name
            (builtInstance createdAt baseDir name gw bp)
          rw [← hres', recSet_absent _ habs2]
          simp
  · have hv' : (validateName reg name).valid = false := by
      cases hb : (validateName reg name).valid
      · rfl
      · exact absurd hb hv
    rw [create_invalid_eq oracle fsOk createdAt baseDir { name := name, port := none } reg hv']
    exact ⟨hinv, fun kv hkv => hkv, fun inst hres' => by simp at hres'⟩

theorem allocatePort_reg_instances (oracle : Int → Bool) (reg : Registry) :
    (allocatePort oracle reg).reg.instances = reg.instances := by
  rcases hres : allocLoop oracle maxAttempts reg [] with
    ⟨gw, bp, written, tr⟩ | ⟨gw, bp, tr⟩ | tr
  · rw [allocatePort_eq_ok hres]
    exact allocLoop_instances oracle _ _ _ hres
  · rw [allocatePort_eq_range hres]
  · rw [allocatePort_eq_exhausted hres]

theorem create_some_zero_eq (oracle : Int → Bool) (fsOk : Bool)
    (createdAt baseDir name : String) (reg : Registry)
    (hv : (validateName reg name).valid = true) :
    create oracle fsOk createdAt baseDir { name := name, port := some 0 } reg =
      createAuto oracle fsOk createdAt baseDir name reg := by
  unfold create
  simp [hv]

theorem create_some_range_eq (oracle : Int → Bool) (fsOk : Bool)
    (createdAt baseDir name : String) (p : Int) (reg : Registry)
    (hv : (validateName reg name).valid = true) (hp : p ≠ 0)
    (hr : p < 1024 ∨ p > 65534) :
    create oracle fsOk createdAt baseDir { name := name, port := some p } reg =
      { res := .error "Port must be between 1024 and 65534", reg := reg } := by
  unfold create
  simp [hv, hp, hr]

theorem create_some_inuse_eq (oracle : Int → Bool) (fsOk : Bool)
    (createdAt baseDir name : String) (p : Int) (reg : Registry)
    (hv : (validateName reg name).valid = true) (hp : p ≠ 0)
    (hnr : ¬(p < 1024 ∨ p > 65534)) (hbusy : (!oracle p || !oracle (p + 1)) = true) :
    create oracle fsOk createdAt baseDir { name := name, port := some p } reg =
      { res := .error ("Port " ++ toString p ++ " or " ++ toString (p + 1) ++
          " is already in use")
        reg := reg } := by
  unfold create
  simp [hv, hp, hnr, hbusy]

theorem create_some_commit_eq (oracle : Int → Bool) (fsOk : Bool)
    (createdAt baseDir name : String) (p : Int) (reg : Registry)
    (hv : (validateName reg name).valid = true) (hp : p ≠ 0)
    (hnr : ¬(p < 1024 ∨ p > 65534)) (hfree : (!oracle p || !oracle (p + 1)) = false) :
    create oracle fsOk createdAt baseDir { name := name, port := some p } reg =
      createCommit fsOk createdAt baseDir name p (p + 1) reg := by
  unfold create
  simp [hv, hp, hnr, hfree]

theorem create_explicit_ok (oracle : Int → Bool) (createdAt baseDir name : String)
    (p : Int) (reg : Registry)
    (hv : (validateName reg name).valid = true) (hp : p ≠ 0)
    (hlo : 1024 ≤ p) (hhi : p ≤ 65534) (ho1 : oracle p = true) (ho2 : oracle (p + 1) = true) :
    create oracle true createdAt baseDir { name := name, port := some p } reg =
      { res := .ok (builtInstance createdAt baseDir name p (p + 1))
        reg := { instances := recSet reg.instances name (builtInstance createdAt baseDir name p (p + 1))
                 nextPortOffset := reg.nextPortOffset
                 availableOffsets := reg.availableOffsets } } := by
  rw [create_some_commit_eq oracle true createdAt baseDir name p reg hv hp (by omega)
    (by simp [ho1, ho2])]
  exact createCommit_ok_eq createdAt baseDir name p (p + 1) reg

/-! ### Properties of `destroy` -/

theorem destroy_notfound_eq (baseDir name : String) (keepData dirExists : Bool)
    (reg : Registry) (h : recGet reg.instances name = none) :
    destroy baseDir name keepData dirExists reg =
      { res := .error ("Instance '" ++ name ++ "' not found"), reg := reg, actions := [] } := by
  unfold destroy
  rw [h]

theorem destroy_found_eq (baseDir name : String) (keepData dirExists : Bool)
    (reg : Registry) {inst : Instance} (h : recGet reg.instances name = some inst) :
    destroy baseDir name keepData dirExists reg =
      { res := .ok ()
        reg := { instances := recDel reg.instances name
                 nextPortOffset := reg.nextPortOffset
                 availableOffsets :=
                   some (sortAsc (availList reg ++ [impliedOffset inst.gatewayPort])) }
        actions := (if !keepData && dirExists then
            [FsAction.composeDown name, FsAction.removeDir (getInstanceDir baseDir name)]
          else [FsAction.composeDown name]) ++ [FsAction.writeRegistry] } := by
  unfold destroy
  rw [h]
  rfl

/-- Building an `InvS` witness from its parts, for a registry literal with a
present `availableOffsets` field. -/
theorem InvS_mk (insts : List (String × Instance)) (next : Int) (av : List Int)
    (h1 : av.Nodup) (h2 : ∀ o ∈ av, 0 ≤ o ∧ o < next) (h3 : 0 ≤ next)
    (h4 : (insts.map Prod.fst).Nodup)
    (h5 : ∀ kv ∈ insts, 0 ≤ impliedOffset kv.2.gatewayPort ∧
        kv.2.gatewayPort =
          INSTANCES_BASE_PORT + impliedOffset kv.2.gatewayPort * INSTANCES_PORT_STEP ∧
        impliedOffset kv.2.gatewayPort ∉ av ∧ impliedOffset kv.2.gatewayPort < next)
    (h6 : insts.Pairwise
        (fun a b => impliedOffset a.2.gatewayPort ≠ impliedOffset b.2.gatewayPort)) :
    InvS { instances := insts, nextPortOffset := next, availableOffsets := some av } :=
  ⟨h1, h2, h3, h4, h5, h6⟩

theorem destroy_invS (baseDir name : String) (keepData dirExists : Bool) (reg : Registry)
    (hinv : InvS reg) : InvS (destroy baseDir name keepData dirExists reg).reg := by
  rcases hg : recGet reg.instances name with _ | inst
  · rw [destroy_notfound_eq baseDir name keepData dirExists reg hg]
    exact hinv
  · rw [destroy_found_eq baseDir name keepData dirExists reg hg]
    obtain ⟨ha1, ha2, ha3, ha4, ha5, ha6⟩ := hinv
    have hmemi : (name, inst) ∈ reg.instances := recGet_mem hg
    obtain ⟨hi0, higw, hinot, hilt⟩ := ha5 (name, inst) hmemi
    have havail : ∀ y, y ∈ sortAsc (availList reg ++ [impliedOffset inst.gatewayPort]) ↔
        y ∈ availList reg ∨ y = impliedOffset inst.gatewayPort := by
      intro y; rw [mem_sortAsc]; simp
    refine InvS_mk _ _ _ ?_ ?_ ha3 ?_ ?_ ?_
    · refine sortAsc_nodup (List.Nodup.append ha1 (by simp) ?_)
      intro y hy hy'
      simp at hy'
      subst hy'
      exact hinot hy
    · intro y hy
      rw [havail] at hy
      rcases hy with hy | hy
      · exact ha2 y hy
      · subst hy; exact ⟨hi0, hilt⟩
    · exact ((recDel_sublist reg.instances name).map Prod.fst).nodup ha4
    · intro kv hkv
      obtain ⟨hkvm, hkv1⟩ := mem_recDel hkv
      have hkvne : kv ≠ (name, inst) := by
        intro heq
        rw [heq] at hkv1
        exact hkv1 rfl
      have hkvoff : impliedOffset kv.2.gatewayPort ≠ impliedOffset inst.gatewayPort := by
        have hsymm : Symmetric (fun (a b : String × Instance) =>
            impliedOffset a.2.gatewayPort ≠ impliedOffset b.2.gatewayPort) :=
          fun _ _ hne => Ne.symm hne
        exact ha6.forall hsymm hkvm hmemi hkvne
      obtain ⟨hk0, hkgw, hknot, hklt⟩ := ha5 kv hkvm
      refine ⟨hk0, hkgw, ?_, hklt⟩
      rw [havail]
      push_neg
      exact ⟨hknot, hkvoff⟩
    · exact ha6.sublist (recDel_sublist reg.instances name)

/-! ### The allocation loop never moves past a busy smallest candidate -/

theorem allocLoop_succ_step (oracle : Int → Bool) (fuel : Nat) (reg : Registry)
    (tried : List Int) (o : Int) (reg1 : Registry) (hpk : pickOffset reg = (o, reg1))
    (hnr : ¬(INSTANCES_BASE_PORT + o * INSTANCES_PORT_STEP > 65535 ∨
        INSTANCES_BASE_PORT + o * INSTANCES_PORT_STEP + 1 > 65535))
    (hbusy : (oracle (INSTANCES_BASE_PORT + o * INSTANCES_PORT_STEP) &&
        oracle (INSTANCES_BASE_PORT + o * INSTANCES_PORT_STEP + 1)) = false) :
    allocLoop oracle (Nat.succ fuel) reg tried =
      allocLoop oracle fuel
        { reg1 with availableOffsets := some (sortAsc (availList reg1 ++ [o])) }
        (o :: tried) := by
  simp only [allocLoop, hpk]
  rw [if_neg hnr, if_neg (by simp [hbusy])]

theorem allocLoop_succ_ok (oracle : Int → Bool) (fuel : Nat) (reg : Registry)
    (tried : List Int) (o : Int) (reg1 : Registry) (hpk : pickOffset reg = (o, reg1))
    (hnr : ¬(INSTANCES_BASE_PORT + o * INSTANCES_PORT_STEP > 65535 ∨
        INSTANCES_BASE_PORT + o * INSTANCES_PORT_STEP + 1 > 65535))
    (hfree : (oracle (INSTANCES_BASE_PORT + o * INSTANCES_PORT_STEP) &&
        oracle (INSTANCES_BASE_PORT + o * INSTANCES_PORT_STEP + 1)) = true) :
    allocLoop oracle (Nat.succ fuel) reg tried =
      .ok (INSTANCES_BASE_PORT + o * INSTANCES_PORT_STEP)
        (INSTANCES_BASE_PORT + o * INSTANCES_PORT_STEP + 1) reg1 (o :: tried).reverse := by
  simp only [allocLoop, hpk]
  rw [if_neg hnr, if_pos hfree]

theorem allocLoop_stuck (oracle : Int → Bool) (o : Int) (rest : List Int)
    (hsorted : rest.Pairwise (· ≤ ·)) (hmin : ∀ y ∈ rest, o ≤ y)
    (hnr : ¬(INSTANCES_BASE_PORT + o * INSTANCES_PORT_STEP > 65535 ∨
        INSTANCES_BASE_PORT + o * INSTANCES_PORT_STEP + 1 > 65535))
    (hbusy : (oracle (INSTANCES_BASE_PORT + o * INSTANCES_PORT_STEP) &&
        oracle (INSTANCES_BASE_PORT + o * INSTANCES_PORT_STEP + 1)) = false) :
    ∀ (fuel : Nat) (reg : Registry), reg.availableOffsets = some (o :: rest) →
      ∀ tried, allocLoop oracle fuel reg tried =
        .exhausted (List.replicate fuel o ++ tried).reverse := by
  intro fuel
  induction fuel with
  | zero =>
    intro reg h tried
    simp [allocLoop]
  | succ fuel ih =>
    intro reg h tried
    rw [allocLoop_succ_step oracle fuel reg tried o { reg with availableOffsets := some rest }
      (pickOffset_shift reg h) hnr hbusy]
    have hsort : sortAsc (availList { reg with availableOffsets := some rest } ++ [o]) =
        o :: rest := sortAsc_min_head o rest hsorted hmin
    rw [hsort]
    show allocLoop oracle fuel { instances := reg.instances
                                 nextPortOffset := reg.nextPortOffset
                                 availableOffsets := some (o :: rest) } (o :: tried) =
      AllocLoopRes.exhausted (List.replicate (fuel + 1) o ++ tried).reverse
    rw [← h]
    show allocLoop oracle fuel reg (o :: tried) =
      AllocLoopRes.exhausted (List.replicate (fuel + 1) o ++ tried).reverse
    rw [ih reg h (o :: tried)]
    congr 1
    rw [List.replicate_succ']
    simp

/-! ### The invariant holds on all auto-reachable states -/

theorem reachAuto_invS {reg : Registry} (h : ReachAuto reg) : InvS reg := by
  induction h with
  | init => exact InvS_empty
  | stepCreate oracle fsOk createdAt baseDir name hreach ih =>
    exact (create_none_spec oracle fsOk createdAt baseDir name _ ih).1
  | stepDestroy baseDir name keepData dirExists hreach ih =>
    exact destroy_invS baseDir name keepData dirExists _ ih
  | stepAlloc oracle hreach ih =>
    rcases hres : (allocatePort oracle _).res with e | ⟨gw, bp⟩
    · rwa [allocatePort_error_reg _ _ hres]
    · exact (allocatePort_ok_spec _ _ ih hres).1

/-! ### Gateway ports returned by auto-allocated create sequences -/

theorem runCreateCalls_cons_ok (baseDir : String) (c : CreateCall) (cs : List CreateCall)
    (reg : Registry) {inst : Instance}
    (h : (create c.oracle c.fsOk c.createdAt baseDir
      { name := c.name, port := c.port } reg).res = .ok inst) :
    runCreateCalls baseDir (c :: cs) reg =
      ((runCreateCalls baseDir cs (create c.oracle c.fsOk c.createdAt baseDir
          { name := c.name, port := c.port } reg).reg).1,
       inst.gatewayPort :: (runCreateCalls baseDir cs (create c.oracle c.fsOk c.createdAt baseDir
          { name := c.name, port := c.port } reg).reg).2) := by
  simp only [runCreateCalls, h]

theorem runCreateCalls_cons_err (baseDir : String) (c : CreateCall) (cs : List CreateCall)
    (reg : Registry) {e : String}
    (h : (create c.oracle c.fsOk c.createdAt baseDir
      { name := c.name, port := c.port } reg).res = .error e) :
    runCreateCalls baseDir (c :: cs) reg =
      runCreateCalls baseDir cs (create c.oracle c.fsOk c.createdAt baseDir
        { name := c.name, port := c.port } reg).reg := by
  simp only [runCreateCalls, h]

theorem runCreateCalls_auto_spec (baseDir : String) :
    ∀ (calls : List CreateCall), (∀ c ∈ calls, c.port = none) →
      ∀ reg : Registry, InvS reg →
        (∀ gw ∈ (runCreateCalls baseDir calls reg).2,
           (∃ k : Int, 0 ≤ k ∧ gw = INSTANCES_BASE_PORT + k * INSTANCES_PORT_STEP) ∧
           (∀ kv ∈ reg.instances, kv.2.gatewayPort ≠ gw)) ∧
        (runCreateCalls baseDir calls reg).2.Pairwise (· ≠ ·) := by
  intro calls
  induction calls with
  | nil =>
    intro _ reg _
    constructor
    · intro gw hgw
      simp [runCreateCalls] at hgw
    · simp [runCreateCalls]
  | cons c cs ih =>
    intro hauto reg hinv
    have hcport : c.port = none := hauto c (by simp)
    have hcs : ∀ c' ∈ cs, c'.port = none := fun c' hc' => hauto c' (by simp [hc'])
    obtain ⟨hinv', hsup, hok⟩ :=
      create_none_spec c.oracle c.fsOk c.createdAt baseDir c.name reg hinv
    rw [← hcport] at hinv' hsup hok
    obtain ⟨hrest1, hrest2⟩ := ih hcs _ hinv'
    rcases hres : (create c.oracle c.fsOk c.createdAt baseDir
        { name := c.name, port := c.port } reg).res with e | inst
    · rw [runCreateCalls_cons_err baseDir c cs reg hres]
      constructor
      · intro gw hgw
        obtain ⟨hk, hfresh⟩ := hrest1 gw hgw
        exact ⟨hk, fun kv hkv => hfresh kv (hsup kv hkv)⟩
      · exact hrest2
    · rw [runCreateCalls_cons_ok baseDir c cs reg hres]
      obtain ⟨o, ho0, hogw, hmem, hfresh⟩ := hok inst hres
      constructor
      · intro gw hgw
        rcases List.mem_cons.mp hgw with hgw | hgw
        · subst hgw
          refine ⟨⟨o, ho0, hogw⟩, ?_⟩
          intro kv hkv heq
          have : impliedOffset kv.2.gatewayPort = o := by
            rw [heq, hogw, impliedOffset_base_step]
          exact hfresh kv hkv this
        · obtain ⟨hk, hfresh'⟩ := hrest1 gw hgw
          exact ⟨hk, fun kv hkv => hfresh' kv (hsup kv hkv)⟩
      · refine List.pairwise_cons.mpr ⟨?_, hrest2⟩
        intro gw' hgw'
        obtain ⟨_, hfresh'⟩ := hrest1 gw' hgw'
        exact hfresh' (c.name, inst) hmem

/-! ### Claim theorems -/

/-- C1 (amended): for every registry state reachable from the empty registry by
any sequence of auto-allocated `create`, `destroy` and `allocatePort`
operations (explicit-port create excluded), the registry invariant holds: for
every registered instance, its implied offset `(gatewayPort − 18800) / 120` is
neither an element of `availableOffsets` nor ≥ `nextPortOffset`, and
`availableOffsets` contains no duplicate elements and no element ≥
`nextPortOffset`. -/
theorem C1_registry_invariant_auto (reg : Registry) (h : ReachAuto reg) : ClaimInv reg :=
  (reachAuto_invS h).claimInv

/-- Witness for C1: the invariant holds at the state reached by one
auto-allocated create from the empty registry. -/
theorem C1_registry_invariant_auto_witness : ClaimInv regAfterCreateA :=
  C1_registry_invariant_auto regAfterCreateA
    (ReachAuto.stepCreate trueOracle true sampleTs sampleBase "a" ReachAuto.init)

/-- C1 is false as stated: the registry reached from the empty registry by the
explicit-port `create("a", 18800)` violates the invariant — the instance's
implied offset 0 is not below `nextPortOffset = 0`, since the explicit-port
path does no offset bookkeeping. -/
theorem C1_counterexample : Reach c1CexReg ∧ ¬ ClaimInv c1CexReg :=
  ⟨Reach.stepCreate trueOracle true sampleTs sampleBase { name := "a", port := some 18800 }
      Reach.init,
   by decide⟩

/-- C2 (amended): over every sequence of auto-allocated `create` calls from the
empty registry (each call with its own availability oracle and filesystem
outcome, no destroys), the `gatewayPort` values returned by the successful
calls are pairwise distinct and each equals `18800 + k·120` for some
non-negative integer `k`. -/
theorem C2_auto_create_ports (baseDir : String) (calls : List CreateCall)
    (hauto : ∀ c ∈ calls, c.port = none) :
    (∀ gw ∈ (runCreateCalls baseDir calls emptyRegistry).2,
       ∃ k : Int, 0 ≤ k ∧ gw = INSTANCES_BASE_PORT + k * INSTANCES_PORT_STEP) ∧
    (runCreateCalls baseDir calls emptyRegistry).2.Pairwise (· ≠ ·) := by
  obtain ⟨h1, h2⟩ := runCreateCalls_auto_spec baseDir calls hauto emptyRegistry InvS_empty
  exact ⟨fun gw hgw => (h1 gw hgw).1, h2⟩

/-- Witness for C2: two auto-allocated creates from the empty registry. -/
theorem C2_auto_create_ports_witness :
    (∀ gw ∈ (runCreateCalls sampleBase
        [{ name := "a", port := none, oracle := trueOracle, fsOk := true, createdAt := sampleTs },
         { name := "b", port := none, oracle := trueOracle, fsOk := true, createdAt := sampleTs }]
        emptyRegistry).2,
       ∃ k : Int, 0 ≤ k ∧ gw = INSTANCES_BASE_PORT + k * INSTANCES_PORT_STEP) ∧
    (runCreateCalls sampleBase
        [{ name := "a", port := none, oracle := trueOracle, fsOk := true, createdAt := sampleTs },
         { name := "b", port := none, oracle := trueOracle, fsOk := true, createdAt := sampleTs }]
        emptyRegistry).2.Pairwise (· ≠ ·) :=
  C2_auto_create_ports sampleBase
    [{ name := "a", port := none, oracle := trueOracle, fsOk := true, createdAt := sampleTs },
     { name := "b", port := none, oracle := trueOracle, fsOk := true, createdAt := sampleTs }]
    (by intro c hc; fin_cases hc <;> rfl)

/-- C2 is false as stated: a single successful `create` call with explicit port
19000 returns a gatewayPort that is not `18800 + k·120` for any non-negative
integer `k`. -/
theorem C2_counterexample :
    (runCreateCalls sampleBase
      [{ name := "a", port := some 19000, oracle := trueOracle, fsOk := true,
         createdAt := sampleTs }] emptyRegistry).2 = [19000] ∧
    ¬∃ k : Int, 0 ≤ k ∧ (19000 : Int) = INSTANCES_BASE_PORT + k * INSTANCES_PORT_STEP := by
  refine ⟨by decide, ?_⟩
  rintro ⟨k, hk, he⟩
  have e1 : INSTANCES_BASE_PORT = 18800 := rfl
  have e2 : INSTANCES_PORT_STEP = 120 := rfl
  rw [e1, e2] at he
  omega

/-- C3 (amended): on every destroy of an existing instance, the offset
computed from that instance's gatewayPort is appended to `availableOffsets`
and the pool is re-sorted ascending — the new pool is a sorted permutation of
the old pool plus the offset.  It is NOT deduplicated: a duplicate arises when
two instances map to the same offset. -/
theorem C3_reclaim_sorted_insert (baseDir name : String) (keepData dirExists : Bool)
    (reg : Registry) (inst : Instance) (hg : recGet reg.instances name = some inst) :
    (destroy baseDir name keepData dirExists reg).res = .ok () ∧
    (destroy baseDir name keepData dirExists reg).reg.availableOffsets =
      some (sortAsc (availList reg ++ [impliedOffset inst.gatewayPort])) ∧
    (sortAsc (availList reg ++ [impliedOffset inst.gatewayPort])).Pairwise (· ≤ ·) ∧
    (sortAsc (availList reg ++ [impliedOffset inst.gatewayPort])).Perm
      (availList reg ++ [impliedOffset inst.gatewayPort]) := by
  rw [destroy_found_eq baseDir name keepData dirExists reg hg]
  exact ⟨rfl, rfl, sortAsc_sorted _, sortAsc_perm _⟩

/-- Witness for C3 (amended), at the registry holding instance `"a"`. -/
theorem C3_reclaim_sorted_insert_witness :
    (destroy sampleBase "a" false true regAfterCreateA).res = .ok () ∧
    (destroy sampleBase "a" false true regAfterCreateA).reg.availableOffsets =
      some (sortAsc (availList regAfterCreateA ++ [impliedOffset sampleInstanceA.gatewayPort])) ∧
    (sortAsc (availList regAfterCreateA ++
      [impliedOffset sampleInstanceA.gatewayPort])).Pairwise (· ≤ ·) ∧
    (sortAsc (availList regAfterCreateA ++ [impliedOffset sampleInstanceA.gatewayPort])).Perm
      (availList regAfterCreateA ++ [impliedOffset sampleInstanceA.gatewayPort]) :=
  C3_reclaim_sorted_insert sampleBase "a" false true regAfterCreateA sampleInstanceA (by decide)

/-- C3 is false as stated: after destroying two instances whose gatewayPorts
(18800 and 18850, both explicit) map to the same offset 0, `availableOffsets`
holds that offset twice, not once. -/
theorem C3_counterexample :
    c3Reg4.availableOffsets = some [0, 0] ∧ (availList c3Reg4).count 0 = 2 := by decide

/-- C4: from the empty registry, after a successful auto-allocated
`create("a")`, then `destroy("a")`, then a successful auto-allocated
`create("b")` with all probed ports available, instance `"b"` is assigned the
same gatewayPort (hence the same offset) that `"a"` had. -/
theorem C4_offset_reuse :
    c4CreateA.res = .ok sampleInstanceA ∧ c4CreateB.res = .ok sampleInstanceB ∧
    sampleInstanceB.gatewayPort = sampleInstanceA.gatewayPort ∧
    impliedOffset sampleInstanceB.gatewayPort = impliedOffset sampleInstanceA.gatewayPort := by
  decide

/-- C5 (amended): for `create` with an explicit nonzero port `p` (a port value
of 0 is falsy to the `if (port)` guard and is treated as absent, triggering
auto-allocation), once name validation passes: if `p < 1024` or `p > 65534` it
fails with the range error leaving the registry unchanged; otherwise its
availability check concerns exactly the two ports `p` and `p + 1`, and if
either is in use it fails with the "already in use" error leaving
`registry.instances`, `nextPortOffset` and `availableOffsets` unchanged; on
success it performs no offset bookkeeping — `nextPortOffset` and
`availableOffsets` are unchanged. -/
theorem C5_explicit_port_path (oracle : Int → Bool) (fsOk : Bool)
    (createdAt baseDir name : String) (p : Int) (reg : Registry)
    (hv : (validateName reg name).valid = true) (hp : p ≠ 0) :
    ((p < 1024 ∨ p > 65534) →
      create oracle fsOk createdAt baseDir { name := name, port := some p } reg =
        { res := .error "Port must be between 1024 and 65534", reg := reg }) ∧
    (¬(p < 1024 ∨ p > 65534) → (oracle p = false ∨ oracle (p + 1) = false) →
      create oracle fsOk createdAt baseDir { name := name, port := some p } reg =
        { res := .error ("Port " ++ toString p ++ " or " ++ toString (p + 1) ++
            " is already in use")
          reg := reg }) ∧
    (¬(p < 1024 ∨ p > 65534) → oracle p = true → oracle (p + 1) = true → fsOk = true →
      (create oracle fsOk createdAt baseDir { name := name, port := some p } reg).res =
        .ok (builtInstance createdAt baseDir name p (p + 1)) ∧
      (create oracle fsOk createdAt baseDir { name := name, port := some p } reg).reg.nextPortOffset =
        reg.nextPortOffset ∧
      (create oracle fsOk createdAt baseDir { name := name, port := some p } reg).reg.availableOffsets =
        reg.availableOffsets) := by
  refine ⟨?_, ?_, ?_⟩
  · intro hr
    exact create_some_range_eq oracle fsOk createdAt baseDir name p reg hv hp hr
  · intro hnr hbusy
    refine create_some_inuse_eq oracle fsOk createdAt baseDir name p reg hv hp hnr ?_
    rcases hbusy with hb | hb <;> simp [hb]
  · intro hnr ho1 ho2 hfs
    subst hfs
    rw [create_explicit_ok oracle createdAt baseDir name p reg hv hp (by omega) (by omega)
      ho1 ho2]
    exact ⟨rfl, rfl, rfl⟩

/-- Witness for C5 (amended) at name `"a"`, port 2000, empty registry. -/
theorem C5_explicit_port_path_witness :
    (((2000 : Int) < 1024 ∨ (2000 : Int) > 65534) →
      create trueOracle true sampleTs sampleBase { name := "a", port := some 2000 }
          emptyRegistry =
        { res := .error "Port must be between 1024 and 65534", reg := emptyRegistry }) ∧
    (¬((2000 : Int) < 1024 ∨ (2000 : Int) > 65534) →
      (trueOracle 2000 = false ∨ trueOracle (2000 + 1) = false) →
      create trueOracle true sampleTs sampleBase { name := "a", port := some 2000 }
          emptyRegistry =
        { res := .error ("Port " ++ toString (2000 : Int) ++ " or " ++
            toString ((2000 : Int) + 1) ++ " is already in use")
          reg := emptyRegistry }) ∧
    (¬((2000 : Int) < 1024 ∨ (2000 : Int) > 65534) → trueOracle 2000 = true →
      trueOracle (2000 + 1) = true → true = true →
      (create trueOracle true sampleTs sampleBase { name := "a", port := some 2000 }
          emptyRegistry).res =
        .ok (builtInstance sampleTs sampleBase "a" 2000 (2000 + 1)) ∧
      (create trueOracle true sampleTs sampleBase { name := "a", port := some 2000 }
          emptyRegistry).reg.nextPortOffset = emptyRegistry.nextPortOffset ∧
      (create trueOracle true sampleTs sampleBase { name := "a", port := some 2000 }
          emptyRegistry).reg.availableOffsets = emptyRegistry.availableOffsets) :=
  C5_explicit_port_path trueOracle true sampleTs sampleBase "a" 2000 emptyRegistry
    (by decide) (by decide)

/-- C5 is false as stated: `create` called with the explicit port 0 does not
fail the `[1024, 65534]` range check — the falsy `if (port)` guard routes it
to auto-allocation, which succeeds. -/
theorem C5_counterexample :
    (create trueOracle true sampleTs sampleBase { name := "a", port := some 0 }
      emptyRegistry).res = .ok sampleInstanceA ∧ (0 : Int) < 1024 := by decide

/-- C6: `validateName` of the empty string is invalid with error exactly
"Name is required"; of `"1abc"` is invalid with an error mentioning
"must start with a letter"; of `"ab cd"` and `"a;rm"` is invalid; of any
unregistered 32-letter name is valid; of any 33-letter name is invalid; and of
any name equal to an existing registry key is invalid. -/
theorem C6_validateName_cases (reg : Registry) (n32 n33 key : String)
    (h32len : n32.data.length = 32) (h32alpha : ∀ c ∈ n32.data, isAsciiLetter c = true)
    (h32free : instanceExists reg n32 = false)
    (h33len : n33.data.length = 33) (h33alpha : ∀ c ∈ n33.data, isAsciiLetter c = true)
    (hkey : instanceExists reg key = true) :
    validateName reg "" = { valid := false, error := some "Name is required" } ∧
    ((validateName reg "1abc").valid = false ∧
      (validateName reg "1abc").error = some ("Name " ++ "must start with a letter" ++
        " and contain only letters, numbers, dashes, underscores")) ∧
    (validateName reg "ab cd").valid = false ∧
    (validateName reg "a;rm").valid = false ∧
    (validateName reg n32).valid = true ∧
    (validateName reg n33).valid = false ∧
    (validateName reg key).valid = false := by
  have hregex : ∀ (s : String), s.data ≠ [] → (∀ c ∈ s.data, isAsciiLetter c = true) →
      nameRegexTest s = true := by
    intro s hne halpha
    unfold nameRegexTest
    rcases hd : s.data with _ | ⟨c, rest⟩
    · exact absurd hd hne
    · have hc := halpha c (by rw [hd]; simp)
      have hrest : rest.all isNameTailChar = true := by
        rw [List.all_eq_true]
        intro x hx
        have hx' := halpha x (by rw [hd]; simp [hx])
        simp [isNameTailChar, hx']
      simp [hc, hrest]
  have h32 : (validateName reg n32).valid = true := by
    have hne : ¬(n32 = "") := fun h => absurd (h ▸ h32len) (by decide)
    have hnonnil : n32.data ≠ [] := fun hd => absurd (by rw [hd] at h32len; exact h32len)
      (by decide)
    have hlen : n32.length = 32 := h32len
    unfold validateName
    rw [if_neg hne, hregex n32 hnonnil h32alpha]
    simp [hlen, h32free]
  have h33 : (validateName reg n33).valid = false := by
    have hne : ¬(n33 = "") := fun h => absurd (h ▸ h33len) (by decide)
    have hnonnil : n33.data ≠ [] := fun hd => absurd (by rw [hd] at h33len; exact h33len)
      (by decide)
    have hlen : n33.length = 33 := h33len
    unfold validateName
    rw [if_neg hne, hregex n33 hnonnil h33alpha]
    simp [hlen]
  have hkeyv : (validateName reg key).valid = false := by
    unfold validateName
    split_ifs with h1 h2 h3
    · rfl
    · rfl
    · rfl
    · rfl
  exact ⟨rfl, ⟨rfl, rfl⟩, rfl, rfl, h32, h33, hkeyv⟩

/-- Witness for C6, with 32 and 33 `a`s and a one-instance registry. -/
theorem C6_validateName_cases_witness :
    validateName c6Reg "" = { valid := false, error := some "Name is required" } ∧
    ((validateName c6Reg "1abc").valid = false ∧
      (validateName c6Reg "1abc").error = some ("Name " ++ "must start with a letter" ++
        " and contain only letters, numbers, dashes, underscores")) ∧
    (validateName c6Reg "ab cd").valid = false ∧
    (validateName c6Reg "a;rm").valid = false ∧
    (validateName c6Reg name32).valid = true ∧
    (validateName c6Reg name33).valid = false ∧
    (validateName c6Reg "inuse").valid = false :=
  C6_validateName_cases c6Reg name32 name33 "inuse" (by decide) (by decide) (by decide)
    (by decide) (by decide) (by decide)

/-- C7 (amended): if `create(name)` fails at any point — invalid or duplicate
name, explicit-port range or availability failure, allocation exhaustion or
range overflow, or directory/file creation failure — then `registry.instances`
is exactly what it was before the call; in particular a name that was not
registered before the call is not registered afterwards. -/
theorem C7_failed_create_instances (oracle : Int → Bool) (fsOk : Bool)
    (createdAt baseDir : String) (options : CreateInstanceOptions) (reg : Registry)
    (e : String)
    (h : (create oracle fsOk createdAt baseDir options reg).res = .error e) :
    (create oracle fsOk createdAt baseDir options reg).reg.instances = reg.instances := by
  obtain ⟨nm, prt⟩ := options
  by_cases hv : (validateName reg nm).valid = true
  · rcases prt with _ | p
    · rw [create_none_eq oracle fsOk createdAt baseDir nm reg hv] at h ⊢
      rcases hres : (allocatePort oracle reg).res with e' | ⟨gw, bp⟩
      · rw [createAuto_err_eq fsOk createdAt baseDir nm hres]
        rw [allocatePort_error_reg oracle reg hres]
      · rw [createAuto_ok_eq fsOk createdAt baseDir nm hres] at h ⊢
        cases fsOk
        · rw [createCommit_fsfail_eq]
          exact allocatePort_reg_instances oracle reg
        · rw [createCommit_ok_eq] at h
          simp at h
    · by_cases hp : p = 0
      · subst hp
        rw [create_some_zero_eq oracle fsOk createdAt baseDir nm reg hv] at h ⊢
        rcases hres : (allocatePort oracle reg).res with e' | ⟨gw, bp⟩
        · rw [createAuto_err_eq fsOk createdAt baseDir nm hres]
          rw [allocatePort_error_reg oracle reg hres]
        · rw [createAuto_ok_eq fsOk createdAt baseDir nm hres] at h ⊢
          cases fsOk
          · rw [createCommit_fsfail_eq]
            exact allocatePort_reg_instances oracle reg
          · rw [createCommit_ok_eq] at h
            simp at h
      · by_cases hr : p < 1024 ∨ p > 65534
        · rw [create_some_range_eq oracle fsOk createdAt baseDir nm p reg hv hp hr]
        · cases hbusy : (!oracle p || !oracle (p + 1))
          · rw [create_some_commit_eq oracle fsOk createdAt baseDir nm p reg hv hp hr hbusy]
              at h ⊢
            cases fsOk
            · rw [createCommit_fsfail_eq]
            · rw [createCommit_ok_eq] at h
              simp at h
          · rw [create_some_inuse_eq oracle fsOk createdAt baseDir nm p reg hv hp hr hbusy]
  · have hv' : (validateName reg nm).valid = false := by
      cases hb : (validateName reg nm).valid
      · rfl
      · exact absurd hb hv
    rw [create_invalid_eq oracle fsOk createdAt baseDir { name := nm, port := prt } reg hv']

/-- Witness for C7 (amended): the duplicate-name failure leaves the instance
map unchanged. -/
theorem C7_failed_create_instances_witness :
    c7Out.reg.instances = regAfterCreateA.instances :=
  C7_failed_create_instances trueOracle true sampleTs sampleBase
    { name := "a", port := none } regAfterCreateA "Instance 'a' already exists" (by decide)

/-- C7 is false as stated: when `create("a")` fails because `"a"` is a
duplicate, `"a"` IS a key of `registry.instances` afterwards — it was
registered by the earlier create. -/
theorem C7_counterexample :
    c7Out.res = .error "Instance 'a' already exists" ∧
    instanceExists c7Out.reg "a" = true := by decide

/-- C8: for every name absent from the registry, destroy fails with the
not-found error and performs no mutation: no container teardown is attempted,
no directory is removed, the registry document is not rewritten, and the
registry value is unchanged. -/
theorem C8_destroy_notfound (baseDir name : String) (keepData dirExists : Bool)
    (reg : Registry) (h : recGet reg.instances name = none) :
    destroy baseDir name keepData dirExists reg =
      { res := .error ("Instance '" ++ name ++ "' not found"), reg := reg, actions := [] } :=
  destroy_notfound_eq baseDir name keepData dirExists reg h

/-- Witness for C8: destroying the unregistered name `"ghost"`. -/
theorem C8_destroy_notfound_witness :
    destroy sampleBase "ghost" false true emptyRegistry =
      { res := .error ("Instance '" ++ "ghost" ++ "' not found"), reg := emptyRegistry
        actions := [] } :=
  C8_destroy_notfound sampleBase "ghost" false true emptyRegistry (by decide)

/-- C9: an offset whose probe fails is pushed back into `availableOffsets`
and, being the smallest candidate, is popped again on the very next iteration.
Hence whenever the smallest candidate offset's two ports are permanently
unavailable (and in range) while some other offset's ports are free,
`allocatePort` probes only that one offset — all 1000 attempts try it — and
throws the allocation-exhausted error without ever trying the free offsets,
leaving the persisted registry unchanged. -/
theorem C9_allocation_livelock (oracle : Int → Bool) (reg : Registry)
    (hsorted : (availList reg).Pairwise (· ≤ ·))
    (hbusy1 : oracle (INSTANCES_BASE_PORT + smallestCandidate reg * INSTANCES_PORT_STEP) = false)
    (hbusy2 : oracle (INSTANCES_BASE_PORT + smallestCandidate reg * INSTANCES_PORT_STEP + 1) =
      false)
    (hrange : INSTANCES_BASE_PORT + smallestCandidate reg * INSTANCES_PORT_STEP + 1 ≤ 65535)
    (hfree : ∃ o2 : Int, oracle (INSTANCES_BASE_PORT + o2 * INSTANCES_PORT_STEP) = true ∧
      oracle (INSTANCES_BASE_PORT + o2 * INSTANCES_PORT_STEP + 1) = true) :
    (allocatePort oracle reg).res = .error ("Could not find available ports after " ++
      toString maxAttempts ++ " attempts. Please specify a custom port with --port") ∧
    (allocatePort oracle reg).tried = List.replicate 1000 (smallestCandidate reg) ∧
    (allocatePort oracle reg).reg = reg := by
  have hnr : ¬(INSTANCES_BASE_PORT + smallestCandidate reg * INSTANCES_PORT_STEP > 65535 ∨
      INSTANCES_BASE_PORT + smallestCandidate reg * INSTANCES_PORT_STEP + 1 > 65535) := by
    omega
  have hbusyB : (oracle (INSTANCES_BASE_PORT + smallestCandidate reg * INSTANCES_PORT_STEP) &&
      oracle (INSTANCES_BASE_PORT + smallestCandidate reg * INSTANCES_PORT_STEP + 1)) =
      false := by
    rw [hbusy1]
    rfl
  rcases hav : reg.availableOffsets with _ | (_ | ⟨o, rest⟩)
  · have hcand : smallestCandidate reg = reg.nextPortOffset := by
      unfold smallestCandidate
      rw [hav]
    rw [hcand] at hnr hbusyB
    have hstep := allocLoop_succ_step oracle 999 reg [] reg.nextPortOffset
      { reg with nextPortOffset := reg.nextPortOffset + 1 }
      (pickOffset_watermark reg (Or.inl hav)) hnr hbusyB
    have havp : sortAsc (availList { reg with nextPortOffset := reg.nextPortOffset + 1 } ++
        [reg.nextPortOffset]) = [reg.nextPortOffset] := by
      rw [show availList { reg with nextPortOffset := reg.nextPortOffset + 1 } =
        availList reg from rfl]
      rw [show availList reg = [] from by simp [availList, hav]]
      rfl
    rw [havp] at hstep
    have hres : allocLoop oracle maxAttempts reg [] =
        .exhausted (List.replicate 1000 reg.nextPortOffset) := by
      show allocLoop oracle (Nat.succ 999) reg [] = _
      rw [hstep]
      rw [allocLoop_stuck oracle reg.nextPortOffset [] List.Pairwise.nil (by simp) hnr hbusyB
        999 _ rfl [reg.nextPortOffset]]
      congr 1
    rw [allocatePort_eq_exhausted hres]
    exact ⟨rfl, by rw [hcand], rfl⟩
  · have hcand : smallestCandidate reg = reg.nextPortOffset := by
      unfold smallestCandidate
      rw [hav]
    rw [hcand] at hnr hbusyB
    have hstep := allocLoop_succ_step oracle 999 reg [] reg.nextPortOffset
      { reg with nextPortOffset := reg.nextPortOffset + 1 }
      (pickOffset_watermark reg (Or.inr hav)) hnr hbusyB
    have havp : sortAsc (availList { reg with nextPortOffset := reg.nextPortOffset + 1 } ++
        [reg.nextPortOffset]) = [reg.nextPortOffset] := by
      rw [show availList { reg with nextPortOffset := reg.nextPortOffset + 1 } =
        availList reg from rfl]
      rw [show availList reg = [] from by simp [availList, hav]]
      rfl
    rw [havp] at hstep
    have hres : allocLoop oracle maxAttempts reg [] =
        .exhausted (List.replicate 1000 reg.nextPortOffset) := by
      show allocLoop oracle (Nat.succ 999) reg [] = _
      rw [hstep]
      rw [allocLoop_stuck oracle reg.nextPortOffset [] List.Pairwise.nil (by simp) hnr hbusyB
        999 _ rfl [reg.nextPortOffset]]
      congr 1
    rw [allocatePort_eq_exhausted hres]
    exact ⟨rfl, by rw [hcand], rfl⟩
  · have hcand : smallestCandidate reg = o := by
      unfold smallestCandidate
      rw [hav]
    rw [hcand] at hnr hbusyB
    have havl : availList reg = o :: rest := by simp [availList, hav]
    rw [havl] at hsorted
    have hres : allocLoop oracle maxAttempts reg [] = .exhausted (List.replicate 1000 o) := by
      show allocLoop oracle 1000 reg [] = _
      rw [allocLoop_stuck oracle o rest (List.pairwise_cons.mp hsorted).2
        (fun y hy => (List.pairwise_cons.mp hsorted).1 y hy) hnr hbusyB 1000 reg hav []]
      simp [List.reverse_replicate]
    rw [allocatePort_eq_exhausted hres]
    exact ⟨rfl, by rw [hcand], rfl⟩

/-- Witness for C9: ports 18800/18801 (offset 0, the watermark candidate of
the empty registry) permanently bound, every other port free. -/
theorem C9_allocation_livelock_witness :
    (allocatePort c9Oracle emptyRegistry).res = .error ("Could not find available ports after " ++
      toString maxAttempts ++ " attempts. Please specify a custom port with --port") ∧
    (allocatePort c9Oracle emptyRegistry).tried =
      List.replicate 1000 (smallestCandidate emptyRegistry) ∧
    (allocatePort c9Oracle emptyRegistry).reg = emptyRegistry :=
  C9_allocation_livelock c9Oracle emptyRegistry (by decide) (by decide) (by decide)
    (by decide) ⟨1, by decide, by decide⟩

/-- C10: for an instance created with an explicit gatewayPort `p` in
`[1024, 18799]`, destroy inserts the negative offset
`Math.floor((p − 18800) / 120)` into `availableOffsets` even though `p` was
never offset-allocated, and a subsequent auto-allocation that pops it returns
`gatewayPort = 18800 + offset·120 < 18800` — a port not of the form
`18800 + k·120` for any non-negative integer `k`. -/
theorem C10_negative_offset_reclaim (p : Int) (hlo : 1024 ≤ p) (hhi : p ≤ 18799) :
    (c10Destroy p).reg.availableOffsets = some [impliedOffset p] ∧
    impliedOffset p < 0 ∧
    (c10Alloc p).res = .ok (INSTANCES_BASE_PORT + impliedOffset p * INSTANCES_PORT_STEP,
      INSTANCES_BASE_PORT + impliedOffset p * INSTANCES_PORT_STEP + 1) ∧
    INSTANCES_BASE_PORT + impliedOffset p * INSTANCES_PORT_STEP < INSTANCES_BASE_PORT ∧
    ¬∃ k : Int, 0 ≤ k ∧ INSTANCES_BASE_PORT + impliedOffset p * INSTANCES_PORT_STEP =
      INSTANCES_BASE_PORT + k * INSTANCES_PORT_STEP := by
  have e1 : INSTANCES_BASE_PORT = 18800 := rfl
  have e2 : INSTANCES_PORT_STEP = 120 := rfl
  have hneg : impliedOffset p < 0 := impliedOffset_neg hhi
  have hv : (validateName emptyRegistry "a").valid = true := by decide
  have hcr := create_explicit_ok trueOracle sampleTs sampleBase "a" p emptyRegistry hv
    (by omega) hlo (by omega) rfl rfl
  have hget : recGet (c10Create p).reg.instances "a" =
      some (builtInstance sampleTs sampleBase "a" p (p + 1)) := by
    unfold c10Create
    rw [hcr]
    rfl
  have hdes := destroy_found_eq sampleBase "a" false true (c10Create p).reg hget
  have havail1 : availList (c10Create p).reg = [] := by
    unfold c10Create
    rw [hcr]
    rfl
  have hreg2 : (c10Destroy p).reg =
      { instances := recDel (c10Create p).reg.instances "a"
        nextPortOffset := (c10Create p).reg.nextPortOffset
        availableOffsets := some [impliedOffset p] } := by
    unfold c10Destroy
    rw [hdes, havail1]
    rfl
  have hnr : ¬(INSTANCES_BASE_PORT + impliedOffset p * INSTANCES_PORT_STEP > 65535 ∨
      INSTANCES_BASE_PORT + impliedOffset p * INSTANCES_PORT_STEP + 1 > 65535) := by
    rw [e1, e2]
    omega
  have hpk : pickOffset (c10Destroy p).reg =
      (impliedOffset p, { (c10Destroy p).reg with availableOffsets := some [] }) :=
    pickOffset_shift _ (by rw [hreg2])
  have hloop : allocLoop trueOracle maxAttempts (c10Destroy p).reg [] =
      .ok (INSTANCES_BASE_PORT + impliedOffset p * INSTANCES_PORT_STEP)
        (INSTANCES_BASE_PORT + impliedOffset p * INSTANCES_PORT_STEP + 1)
        { (c10Destroy p).reg with availableOffsets := some [] } [impliedOffset p] := by
    show allocLoop trueOracle (Nat.succ 999) (c10Destroy p).reg [] = _
    rw [allocLoop_succ_ok trueOracle 999 (c10Destroy p).reg [] (impliedOffset p)
      { (c10Destroy p).reg with availableOffsets := some [] } hpk hnr rfl]
    rfl
  have halloc := allocatePort_eq_ok hloop
  refine ⟨by rw [hreg2], hneg, ?_, ?_, ?_⟩
  · show (allocatePort trueOracle (c10Destroy p).reg).res = _
    rw [halloc]
  · rw [e1, e2]
    omega
  · rintro ⟨k, hk, he⟩
    rw [e1, e2] at he
    omega

/-- Witness for C10 at the explicit port 1024 (implied offset −149). -/
theorem C10_negative_offset_reclaim_witness :
    (c10Destroy 1024).reg.availableOffsets = some [impliedOffset 1024] ∧
    impliedOffset 1024 < 0 ∧
    (c10Alloc 1024).res = .ok (INSTANCES_BASE_PORT + impliedOffset 1024 * INSTANCES_PORT_STEP,
      INSTANCES_BASE_PORT + impliedOffset 1024 * INSTANCES_PORT_STEP + 1) ∧
    INSTANCES_BASE_PORT + impliedOffset 1024 * INSTANCES_PORT_STEP < INSTANCES_BASE_PORT ∧
    ¬∃ k : Int, 0 ≤ k ∧ INSTANCES_BASE_PORT + impliedOffset 1024 * INSTANCES_PORT_STEP =
      INSTANCES_BASE_PORT + k * INSTANCES_PORT_STEP :=
  C10_negative_offset_reclaim 1024 (by decide) (by decide)

end OpenClaw
